import Mathlib

/-! Formal model of the dataset splitting and sampling pipeline of
`nox/datasets/ecreact.py` (and the shared SMILES-augmentation block of
`nox/datasets/reactions.py`). Python dicts are modelled as association
lists, dict indexing as an `Except`-valued lookup raising `KeyError` on
an absent key, and `numpy` global randomness as an explicit generator
state threaded through the computation. -/

/-- Split labels `"train"` / `"dev"` / `"test"`. -/
inductive Split
  | train
  | dev
  | test
deriving DecidableEq, Repr

/-- Python exceptions arising in the modelled code paths. -/
inductive PyErr
  | keyError (key : String)
  | nameError (n : String)
  | valueError (msg : String)
  | notImplementedError (msg : String)
  | otherError (msg : String)
deriving DecidableEq, Repr

/-- Normalisation of one endpoint of a Python slice `l[a:b]` (step 1) to
`[0, n]`: a negative index counts from the end of the list, and out-of-range
endpoints are clamped. -/
def pyIdx (n : ℕ) (i : ℤ) : ℕ :=
  min (if i < 0 then ((n : ℤ) + i).toNat else i.toNat) n

/-- Python list slice `l[a:b]` (step 1), including negative-index wrap-around
(`l[:-1]` is everything but the last element). -/
def pySlice (l : List α) (a b : ℤ) : List α :=
  (l.drop (pyIdx l.length a)).take (pyIdx l.length b - pyIdx l.length a)

/-- Python `".".join(l)`. -/
def joinDots (l : List String) : String := String.intercalate "." l

/-- Identity-strategy split blocks of `ECReact_RXNS.assign_splits`
(ecreact.py lines 366-379): with the deduplicated, shuffled key list
`samples`, the code computes
`split_indices = ceil(cumsum(array(split_probs) * len(samples)))` prefixed
by `0`, and block `i` is the Python slice
`samples[split_indices[i] : split_indices[i+1]]` assigned to
`["train","dev","test"][i]`. Since the probabilities are exact rationals
here, the cumulative sums are `p1*n`, `(p1+p2)*n`, `(p1+p2+p3)*n`. The
shuffled key list is passed in directly: `np.random.shuffle` realises an
arbitrary permutation of `sorted(list(set(samples)))`. -/
def identityBlocks (p1 p2 p3 : ℚ) (shuffled : List String) :
    List String × List String × List String :=
  let n := shuffled.length
  (pySlice shuffled 0 ⌈p1 * n⌉,
   pySlice shuffled ⌈p1 * n⌉ ⌈(p1 + p2) * n⌉,
   pySlice shuffled ⌈(p1 + p2) * n⌉ ⌈(p1 + p2 + p3) * n⌉)

/-- With both endpoints in range, a Python slice is a drop-then-take. -/
theorem pyIdx_of_nonneg (n : ℕ) (a : ℤ) (h0 : 0 ≤ a) (hn : a ≤ n) :
    pyIdx n a = a.toNat := by
  unfold pyIdx
  rw [if_neg (not_lt.mpr h0)]
  exact min_eq_left (by omega)

/-- Slicing a list at `0 ≤ a ≤ b ≤ n` into `[0:a]`, `[a:b]`, `[b:n]`
reassembles the list. -/
theorem pySlice_three_cover (l : List α) (a b : ℤ) (h0 : 0 ≤ a) (hab : a ≤ b)
    (hbn : b ≤ l.length) :
    pySlice l 0 a ++ pySlice l a b ++ pySlice l b (l.length : ℤ) = l := by
  have ha : pyIdx l.length a = a.toNat := pyIdx_of_nonneg _ _ h0 (by omega)
  have hb : pyIdx l.length b = b.toNat := pyIdx_of_nonneg _ _ (le_trans h0 hab) hbn
  have h0' : pyIdx l.length 0 = 0 := pyIdx_of_nonneg _ _ le_rfl (by omega)
  have hn' : pyIdx l.length (l.length : ℤ) = l.length :=
    pyIdx_of_nonneg _ _ (by omega) le_rfl
  unfold pySlice
  rw [ha, hb, h0', hn', List.drop_zero, Nat.sub_zero]
  have hlast : (l.drop b.toNat).take (l.length - b.toNat) = l.drop b.toNat :=
    List.take_of_length_le (by rw [List.length_drop])
  rw [hlast, List.append_assoc]
  have hdd : l.drop b.toNat = (l.drop a.toNat).drop (b.toNat - a.toNat) := by
    rw [List.drop_drop]
    congr 1
    omega
  rw [hdd, List.take_append_drop, List.take_append_drop]

/-- C1: for the identity split strategies (`sequence`, `mmseqs`, `ec`,
`product`), with proportions `p1, p2, p3 ≥ 0` summing to `1` and `shuffled`
any permutation of the deduplicated key list, the three contiguous blocks
cut at ceiling-rounded cumulative-proportion boundaries cover exactly the
full deduplicated key set and are pairwise disjoint, the last block
absorbing the rounding remainder. -/
theorem c1_identity_partition (raw shuffled : List String) (p1 p2 p3 : ℚ)
    (h1 : 0 ≤ p1) (h2 : 0 ≤ p2) (h3 : 0 ≤ p3) (hsum : p1 + p2 + p3 = 1)
    (hperm : shuffled.Perm raw.dedup) :
    (∀ k, (k ∈ (identityBlocks p1 p2 p3 shuffled).1 ∨
           k ∈ (identityBlocks p1 p2 p3 shuffled).2.1 ∨
           k ∈ (identityBlocks p1 p2 p3 shuffled).2.2) ↔ k ∈ raw) ∧
    (identityBlocks p1 p2 p3 shuffled).1.Disjoint
      (identityBlocks p1 p2 p3 shuffled).2.1 ∧
    (identityBlocks p1 p2 p3 shuffled).1.Disjoint
      (identityBlocks p1 p2 p3 shuffled).2.2 ∧
    (identityBlocks p1 p2 p3 shuffled).2.1.Disjoint
      (identityBlocks p1 p2 p3 shuffled).2.2 := by
  have hn : (0 : ℚ) ≤ (shuffled.length : ℚ) := Nat.cast_nonneg _
  have hA0 : (0 : ℤ) ≤ ⌈p1 * (shuffled.length : ℚ)⌉ :=
    Int.ceil_nonneg (mul_nonneg h1 hn)
  have hAB : ⌈p1 * (shuffled.length : ℚ)⌉ ≤ ⌈(p1 + p2) * (shuffled.length : ℚ)⌉ :=
    Int.ceil_le_ceil (mul_le_mul_of_nonneg_right (by linarith) hn)
  have hBC : ⌈(p1 + p2) * (shuffled.length : ℚ)⌉ ≤
      ⌈(p1 + p2 + p3) * (shuffled.length : ℚ)⌉ :=
    Int.ceil_le_ceil (mul_le_mul_of_nonneg_right (by linarith) hn)
  have hC : ⌈(p1 + p2 + p3) * (shuffled.length : ℚ)⌉ = (shuffled.length : ℤ) := by
    rw [hsum, one_mul]
    exact Int.ceil_natCast _
  have key : (identityBlocks p1 p2 p3 shuffled).1 ++
      (identityBlocks p1 p2 p3 shuffled).2.1 ++
      (identityBlocks p1 p2 p3 shuffled).2.2 = shuffled := by
    show pySlice shuffled 0 _ ++ pySlice shuffled _ _ ++ pySlice shuffled _ _ = _
    rw [hC]
    exact pySlice_three_cover shuffled _ _ hA0 hAB (by rw [← hC]; exact hBC)
  have hmem : ∀ k, k ∈ shuffled ↔ k ∈ raw := by
    intro k
    rw [hperm.mem_iff, List.mem_dedup]
  have hnd : shuffled.Nodup := hperm.nodup_iff.mpr raw.nodup_dedup
  rw [← key] at hnd
  have hnd1 := List.nodup_append.mp hnd
  have hnd2 := List.nodup_append.mp hnd1.1
  refine ⟨?_, hnd2.2.2, ?_, ?_⟩
  · intro k
    have hk : k ∈ ((identityBlocks p1 p2 p3 shuffled).1 ++
        (identityBlocks p1 p2 p3 shuffled).2.1 ++
        (identityBlocks p1 p2 p3 shuffled).2.2) ↔ k ∈ shuffled := by rw [key]
    rw [← hmem k, ← hk]
    simp [List.mem_append, or_assoc]
  · intro a ha hb
    exact hnd1.2.2 (List.mem_append_left _ ha) hb
  · intro a ha hb
    exact hnd1.2.2 (List.mem_append_right _ ha) hb

/-- Witness for C1: the key `"a"` of the raw entity list
`["b", "a", "c", "a"]` lands in one of the three blocks cut from the
shuffled deduplicated keys `["c", "b", "a"]` with proportions
`(1/2, 1/4, 1/4)`. -/
theorem c1_identity_partition_witness :
    ("a" ∈ (identityBlocks (1/2) (1/4) (1/4) ["c", "b", "a"]).1 ∨
     "a" ∈ (identityBlocks (1/2) (1/4) (1/4) ["c", "b", "a"]).2.1 ∨
     "a" ∈ (identityBlocks (1/2) (1/4) (1/4) ["c", "b", "a"]).2.2) :=
  ((c1_identity_partition ["b", "a", "c", "a"] ["c", "b", "a"] (1/2) (1/4) (1/4)
      (by norm_num) (by norm_num) (by norm_num) (by norm_num) (by decide)).1
    "a").mpr (by decide)

/-- One raw reaction record of the metadata JSON, with the optional fields
read by `ECReact_RXNS.create_dataset` and `assign_splits`. -/
structure RxnRecord where
  ec : String
  reactants : List String
  products : List String
  split : Option Split
  mapped_reaction : Option String
  mapped_recoverable_reaction : Option String
  bond_changes : Option String
  mapped_reactants : Option String
  mapped_products : Option String
deriving DecidableEq, Repr

/-- Convenience constructor for reaction records with the optional fields
defaulted. -/
def mkRxn (ec : String) (reactants products : List String)
    (mrec : Option String) : RxnRecord :=
  { ec := ec, reactants := reactants, products := products, split := none,
    mapped_reaction := none, mapped_recoverable_reaction := mrec,
    bond_changes := none, mapped_reactants := none, mapped_products := none }

/-- Model of `np.cumsum` on a list of naturals: entry `i` is the sum of the
first `i+1` entries. -/
def cumsum : List ℕ → List ℕ
  | [] => []
  | x :: xs => x :: (cumsum xs).map (x + ·)

theorem cumsum_length (c : List ℕ) : (cumsum c).length = c.length := by
  induction c with
  | nil => rfl
  | cons x xs ih => simp [cumsum, ih]

theorem cumsum_get (c : List ℕ) (j : ℕ) (h : j < (cumsum c).length) :
    (cumsum c).get ⟨j, h⟩ = (c.take (j + 1)).sum := by
  induction c generalizing j with
  | nil => simp [cumsum] at h
  | cons x xs ih =>
    cases j with
    | zero => simp [cumsum]
    | succ j =>
      have hj : j < (cumsum xs).length := by
        simpa [cumsum] using h
      have := ih j hj
      simp only [cumsum, List.take_succ_cons, List.sum_cons]
      rw [List.get_cons_succ]
      rw [List.get_map]
      rw [this]

theorem cumsum_sorted (c : List ℕ) : (cumsum c).Sorted (· ≤ ·) := by
  induction c with
  | nil => simp [cumsum]
  | cons x xs ih =>
    simp only [cumsum, List.sorted_cons]
    constructor
    · intro b hb
      rcases List.mem_map.mp hb with ⟨a, _, rfl⟩
      omega
    · exact List.Pairwise.map _ (fun a b hab => by omega) ih

/-- On a `≤`-sorted list of naturals, a downward-closed predicate holds on
the first `countP` entries. -/
theorem sorted_countP_imp (p : ℕ → Bool)
    (hp : ∀ a b : ℕ, a ≤ b → p b = true → p a = true) :
    ∀ (s : List ℕ), s.Sorted (· ≤ ·) → ∀ i (hi : i < s.length),
      i < s.countP p → p (s.get ⟨i, hi⟩) = true := by
  intro s
  induction s with
  | nil =>
    intro _ i hi
    simp at hi
  | cons x xs ih =>
    intro hs i hi hcount
    have hx := (List.sorted_cons.mp hs).1
    have hxs := (List.sorted_cons.mp hs).2
    have hpx : p x = true := by
      by_contra hnot
      have h0 : xs.countP p = 0 := by
        rw [List.countP_eq_zero]
        intro b hb hpb
        exact hnot (hp x b (hx b hb) hpb)
      rw [List.countP_cons, h0] at hcount
      simp [hnot] at hcount
    cases i with
    | zero => simpa using hpx
    | succ i =>
      have hi' : i < xs.length := by simpa using hi
      have hc' : i < xs.countP p := by
        rw [List.countP_cons] at hcount
        simp [hpx] at hcount
        omega
      simpa using ih hxs i hi' hc'

/-- Every element of a Python slice is an element of the sliced list. -/
theorem pySlice_subset (l : List α) (a b : ℤ) : ∀ x ∈ pySlice l a b, x ∈ l := by
  intro x hx
  unfold pySlice at hx
  exact List.drop_subset _ _ (List.take_subset _ _ hx)

/-- Append one recoverability flag to the group of product `k`, preserving
first-insertion key order (Python `defaultdict(list)` plus `append`). -/
def addGroup : List (String × List Bool) → String → Bool → List (String × List Bool)
  | [], k, v => [(k, [v])]
  | (k', vs) :: rest, k, v =>
      if k' = k then (k', vs ++ [v]) :: rest else (k', vs) :: addGroup rest k v

/-- Grouping of `assign_splits` under the `recoverable_mapping_product`
strategy (ecreact.py lines 382-386):
`products[s["products"][0]].append(int(s.get("mapped_recoverable_reaction", None) is not None))`,
with the 0/1 flags as booleans. -/
def rmpGroups (meta : List RxnRecord) : List (String × List Bool) :=
  meta.foldl
    (fun acc r => addGroup acc r.products.headI r.mapped_recoverable_reaction.isSome) []

/-- Keys of the `products` dict in insertion order. -/
def rmpGroupKeys (meta : List RxnRecord) : List String := (rmpGroups meta).map (·.1)

/-- Keys of
`recoverable_products = {p: sum(v) for p, v in products.items() if sum(v) == len(v)}`
(lines 388-390): the products all of whose grouped reactions are recoverable. -/
def rmpRecoverableKeys (meta : List RxnRecord) : List String :=
  ((rmpGroups meta).filter (fun kv => kv.2.all (· = true))).map (·.1)

/-- Value `recoverable_products[p] = sum(v)`: the number of recoverable
reactions grouped under product `p`. -/
def rmpRecCount (meta : List RxnRecord) (p : String) : ℕ :=
  (((rmpGroups meta).lookup p).getD []).count true

/-- Value `len(products[p])`. -/
def rmpGroupLen (meta : List RxnRecord) (p : String) : ℕ :=
  (((rmpGroups meta).lookup p).getD []).length

/-- `num_products = (np.cumsum([recoverable_products[p] for p in product_names]) < split_probs[2] * len(metadata_json)).sum() - 1`
(lines 398-401), as an integer: it is `-1` when no cumulative count is below
the bound. -/
def rmpNumTest (meta : List RxnRecord) (shuffled : List String) (pTest : ℚ) : ℤ :=
  ((cumsum (shuffled.map (rmpRecCount meta))).countP
    (fun c : ℕ => decide ((c : ℚ) < pTest * meta.length))) - 1

/-- `test_products = product_names[:num_products]` (line 402); `shuffled` is
the `np.random.shuffle`d permutation of `sorted(list(recoverable_products.keys()))`. -/
def rmpTestProducts (meta : List RxnRecord) (shuffled : List String) (pTest : ℚ) :
    List String :=
  pySlice shuffled 0 (rmpNumTest meta shuffled pTest)

/-- `train_dev_products = [p for p in products if p not in self.to_split]`
(line 406), taken after the test products were assigned. -/
def rmpTrainDev (meta : List RxnRecord) (shuffled : List String) (pTest : ℚ) :
    List String :=
  (rmpGroupKeys meta).filter (fun p => decide (p ∉ rmpTestProducts meta shuffled pTest))

/-- `num_dev_products` (lines 407-410). -/
def rmpNumDev (meta : List RxnRecord) (shuffled : List String) (pTest pDev : ℚ) : ℤ :=
  ((cumsum ((rmpTrainDev meta shuffled pTest).map (rmpGroupLen meta))).countP
    (fun c : ℕ => decide ((c : ℚ) < pDev * meta.length))) - 1

/-- `dev_products = train_dev_products[:num_dev_products]` (line 411). -/
def rmpDevProducts (meta : List RxnRecord) (shuffled : List String)
    (pTest pDev : ℚ) : List String :=
  pySlice (rmpTrainDev meta shuffled pTest) 0 (rmpNumDev meta shuffled pTest pDev)

/-- `train_products = [p for p in products if p not in self.to_split]`
(line 415), taken after test and dev were assigned. -/
def rmpTrainProducts (meta : List RxnRecord) (shuffled : List String)
    (pTest pDev : ℚ) : List String :=
  (rmpGroupKeys meta).filter
    (fun p => decide (p ∉ rmpTestProducts meta shuffled pTest ∧
                      p ∉ rmpDevProducts meta shuffled pTest pDev))

theorem rmpRecoverableKeys_subset (meta : List RxnRecord) :
    ∀ p ∈ rmpRecoverableKeys meta, p ∈ rmpGroupKeys meta := by
  intro p hp
  rcases List.mem_map.mp hp with ⟨kv, hkv, rfl⟩
  exact List.mem_map.mpr ⟨kv, List.mem_of_mem_filter hkv, rfl⟩

/-- C4: under the `recoverable_mapping_product` strategy the test, dev and
train product buckets are pairwise disjoint and together cover exactly the
product keys of the metadata, so every product key is assigned exactly one
split: dev is drawn only from products not already assigned to test, and
train takes all remaining products. `shuffled` is any permutation of the
recoverable product keys (the result of `np.random.shuffle` on their
sorted list). -/
theorem c4_rmp_partition (meta : List RxnRecord) (shuffled : List String)
    (pTest pDev : ℚ) (hperm : shuffled.Perm (rmpRecoverableKeys meta)) :
    (rmpTestProducts meta shuffled pTest).Disjoint
      (rmpDevProducts meta shuffled pTest pDev) ∧
    (rmpTestProducts meta shuffled pTest).Disjoint
      (rmpTrainProducts meta shuffled pTest pDev) ∧
    (rmpDevProducts meta shuffled pTest pDev).Disjoint
      (rmpTrainProducts meta shuffled pTest pDev) ∧
    (∀ p, p ∈ rmpGroupKeys meta ↔
      (p ∈ rmpTestProducts meta shuffled pTest ∨
       p ∈ rmpDevProducts meta shuffled pTest pDev ∨
       p ∈ rmpTrainProducts meta shuffled pTest pDev)) := by
  have hdev_notin : ∀ p ∈ rmpDevProducts meta shuffled pTest pDev,
      p ∉ rmpTestProducts meta shuffled pTest := by
    intro p hp
    have hp' : p ∈ rmpTrainDev meta shuffled pTest :=
      pySlice_subset _ _ _ p hp
    have h2 := (List.mem_filter.mp hp').2
    simpa using h2
  have hdev_keys : ∀ p ∈ rmpDevProducts meta shuffled pTest pDev,
      p ∈ rmpGroupKeys meta := by
    intro p hp
    exact (List.mem_filter.mp (pySlice_subset _ _ _ p hp)).1
  have htest_keys : ∀ p ∈ rmpTestProducts meta shuffled pTest,
      p ∈ rmpGroupKeys meta := by
    intro p hp
    exact rmpRecoverableKeys_subset meta p (hperm.subset (pySlice_subset _ _ _ p hp))
  have htrain : ∀ p, p ∈ rmpTrainProducts meta shuffled pTest pDev ↔
      (p ∈ rmpGroupKeys meta ∧ p ∉ rmpTestProducts meta shuffled pTest ∧
        p ∉ rmpDevProducts meta shuffled pTest pDev) := by
    intro p
    rw [rmpTrainProducts, List.mem_filter]
    simp
  refine ⟨?_, ?_, ?_, ?_⟩
  · intro p hp hq
    exact hdev_notin p hq hp
  · intro p hp hq
    exact ((htrain p).mp hq).2.1 hp
  · intro p hp hq
    exact ((htrain p).mp hq).2.2 hp
  · intro p
    constructor
    · intro hp
      by_cases h1 : p ∈ rmpTestProducts meta shuffled pTest
      · exact Or.inl h1
      by_cases h2 : p ∈ rmpDevProducts meta shuffled pTest pDev
      · exact Or.inr (Or.inl h2)
      · exact Or.inr (Or.inr ((htrain p).mpr ⟨hp, h1, h2⟩))
    · rintro (h | h | h)
      · exact htest_keys p h
      · exact hdev_keys p h
      · exact ((htrain p).mp h).1

/-- Two-reaction metadata: product "A" has a recoverable mapping, product
"B" does not. -/
def metaC4 : List RxnRecord :=
  [mkRxn "1.1.1.1" ["C"] ["A"] (some "m"), mkRxn "1.1.1.2" ["O"] ["B"] none]

/-- Witness for C4 at a concrete input: product "B" of `metaC4` lands in
exactly one of the three buckets (here derived from the partition). -/
theorem c4_rmp_partition_witness :
    ("B" ∈ rmpTestProducts metaC4 ["A"] (1/2) ∨
     "B" ∈ rmpDevProducts metaC4 ["A"] (1/2) (1/4) ∨
     "B" ∈ rmpTrainProducts metaC4 ["A"] (1/2) (1/4)) :=
  ((c4_rmp_partition metaC4 ["A"] (1/2) (1/4) (by decide)).2.2.2 "B").mp (by decide)

/-- With at least one cumulative count strictly below the bound `B`, the sum
of the first `countP - 1` entries stays strictly below `B` (the `- 1` is the
"back off by one" of lines 398-401). -/
theorem take_sum_lt_of_countP (c : List ℕ) (B : ℚ)
    (hk : 1 ≤ (cumsum c).countP (fun x : ℕ => decide ((x : ℚ) < B))) :
    ((c.take ((cumsum c).countP (fun x : ℕ => decide ((x : ℚ) < B)) - 1)).sum : ℚ) < B := by
  have hmono : ∀ a b : ℕ, a ≤ b →
      decide ((b : ℚ) < B) = true → decide ((a : ℚ) < B) = true := by
    intro a b hab hb
    rw [decide_eq_true_iff] at hb ⊢
    exact lt_of_le_of_lt (Nat.cast_le.mpr hab) hb
  have hsorted := cumsum_sorted c
  have hklen : (cumsum c).countP (fun x : ℕ => decide ((x : ℚ) < B)) ≤ (cumsum c).length :=
    List.countP_le_length _
  set k := (cumsum c).countP (fun x : ℕ => decide ((x : ℚ) < B)) with hkdef
  rcases Nat.lt_or_ge k 2 with h2 | h2
  · have hk1 : k - 1 = 0 := by omega
    rw [hk1]
    simp only [List.take_zero, List.sum_nil, Nat.cast_zero]
    have h0len : 0 < (cumsum c).length := by omega
    have h0 := sorted_countP_imp _ hmono (cumsum c) hsorted 0 h0len (by omega)
    rw [decide_eq_true_iff] at h0
    exact lt_of_le_of_lt (by positivity) h0
  · have hj : k - 2 < (cumsum c).length := by omega
    have hget := cumsum_get c (k - 2) hj
    have hp := sorted_countP_imp _ hmono (cumsum c) hsorted (k - 2) hj (by omega)
    rw [decide_eq_true_iff] at hp
    rw [hget] at hp
    have hjj : k - 2 + 1 = k - 1 := by omega
    rw [hjj] at hp
    exact hp

/-- When `num_products` is nonnegative, `test_products` is an ordinary
prefix of the shuffled product names. -/
theorem rmpTestProducts_eq_take (meta : List RxnRecord) (shuffled : List String)
    (pTest : ℚ)
    (hk : 1 ≤ (cumsum (shuffled.map (rmpRecCount meta))).countP
        (fun c : ℕ => decide ((c : ℚ) < pTest * meta.length))) :
    rmpTestProducts meta shuffled pTest =
      shuffled.take ((cumsum (shuffled.map (rmpRecCount meta))).countP
        (fun c : ℕ => decide ((c : ℚ) < pTest * meta.length)) - 1) := by
  have hklen : (cumsum (shuffled.map (rmpRecCount meta))).countP
      (fun c : ℕ => decide ((c : ℚ) < pTest * meta.length)) ≤ shuffled.length := by
    have h1 : (cumsum (shuffled.map (rmpRecCount meta))).countP
        (fun c : ℕ => decide ((c : ℚ) < pTest * meta.length)) ≤
        (cumsum (shuffled.map (rmpRecCount meta))).length :=
      List.countP_le_length _
    rwa [cumsum_length, List.length_map] at h1
  unfold rmpTestProducts pySlice rmpNumTest
  rw [pyIdx_of_nonneg _ _ le_rfl (by omega),
    pyIdx_of_nonneg _ _ (by omega) (by omega)]
  simp only [Int.toNat_zero, List.drop_zero, Nat.sub_zero]
  congr 1
  omega

/-- C5 (amended): when at least one cumulative reaction count of the
shuffled recoverable products is strictly below `p_test * N_total`
(equivalently, `num_products ≥ 0`), the total reaction count of the chosen
test products stays strictly under that bound. (When even the first product
reaches the bound, `num_products = -1` and the Python slice `[:-1]` instead
selects all products but the last, which can exceed the bound — see the
counterexample.) -/
theorem c5_rmp_test_bound (meta : List RxnRecord) (shuffled : List String)
    (pTest : ℚ)
    (hk : 1 ≤ (cumsum (shuffled.map (rmpRecCount meta))).countP
        (fun c : ℕ => decide ((c : ℚ) < pTest * meta.length))) :
    (((rmpTestProducts meta shuffled pTest).map (rmpRecCount meta)).sum : ℚ)
      < pTest * meta.length := by
  rw [rmpTestProducts_eq_take meta shuffled pTest hk, List.map_take]
  exact take_sum_lt_of_countP (shuffled.map (rmpRecCount meta))
    (pTest * meta.length) hk

/-- Six-reaction metadata: five reactions produce "A", one produces "B",
and every reaction has a recoverable atom mapping. -/
def metaC5 : List RxnRecord :=
  [mkRxn "1.1.1.1" ["C"] ["A"] (some "m"), mkRxn "1.1.1.1" ["CC"] ["A"] (some "m"),
   mkRxn "1.1.1.1" ["CCC"] ["A"] (some "m"), mkRxn "1.1.1.1" ["CCCC"] ["A"] (some "m"),
   mkRxn "1.1.1.1" ["CCCCC"] ["A"] (some "m"), mkRxn "1.1.1.2" ["O"] ["B"] (some "m")]

/-- Counterexample to C5 as stated: with `metaC5` (6 reactions),
`p_test = 1/2`, and the shuffle order `["A", "B"]`, the first cumulative
count (5) already reaches the bound `1/2 * 6 = 3`, so
`num_products = 0 - 1 = -1` and the Python slice `product_names[:-1]`
selects `["A"]`: the chosen test products carry 5 reactions, which does
not stay under the bound 3. -/
theorem c5_rmp_bound_cex :
    ["A", "B"].Perm (rmpRecoverableKeys metaC5) ∧
    rmpTestProducts metaC5 ["A", "B"] (1/2) = ["A"] ∧
    ¬ ((((rmpTestProducts metaC5 ["A", "B"] (1/2)).map (rmpRecCount metaC5)).sum : ℚ)
        < (1/2) * (metaC5.length : ℚ)) := by
  have hl : ((metaC5.length : ℕ) : ℚ) = 6 := by norm_num [metaC5]
  have hnum : rmpNumTest metaC5 ["A", "B"] (1/2) = -1 := by
    unfold rmpNumTest
    have hcums : cumsum (["A", "B"].map (rmpRecCount metaC5)) = [5, 6] := by rfl
    rw [hcums]
    have hc : List.countP
        (fun c : ℕ => decide ((c : ℚ) < 1/2 * (metaC5.length : ℚ))) [5, 6] = 0 := by
      apply List.countP_eq_zero.mpr
      intro a ha
      fin_cases ha <;> simp only [decide_eq_true_eq, hl] <;> norm_num
    rw [hc]
    rfl
  have htest : rmpTestProducts metaC5 ["A", "B"] (1/2) = ["A"] := by
    unfold rmpTestProducts
    rw [hnum]
    rfl
  refine ⟨by decide, htest, ?_⟩
  rw [htest]
  have hsum : (["A"].map (rmpRecCount metaC5)).sum = 5 := by rfl
  rw [hsum, hl]
  norm_num

/-- Two-reaction metadata with two recoverable products, one reaction each. -/
def metaW5 : List RxnRecord :=
  [mkRxn "1.1.1.1" ["C"] ["A"] (some "m"), mkRxn "1.1.1.2" ["O"] ["B"] (some "m")]

/-- Witness for the amended C5 at a concrete input where the first
cumulative count is below the bound. -/
theorem c5_rmp_test_bound_witness :
    (((rmpTestProducts metaW5 ["A", "B"] (3/4)).map (rmpRecCount metaW5)).sum : ℚ)
      < (3/4) * metaW5.length :=
  c5_rmp_test_bound metaW5 ["A", "B"] (3/4) (by
    have hcums : cumsum (["A", "B"].map (rmpRecCount metaW5)) = [1, 2] := by rfl
    rw [hcums]
    have hl : ((metaW5.length : ℕ) : ℚ) = 2 := by norm_num [metaW5]
    simp only [List.countP_cons, List.countP_nil, decide_eq_true_eq, hl]
    norm_num)

/-- Configuration fields of `self.args` read by the modelled methods of
`ECReact_RXNS`. -/
structure DArgs where
  split_type : String
  ec_level : ℕ
  max_protein_length : Option ℕ
  max_reactant_size : Option ℕ
  max_product_size : Option ℕ
  atom_map_reactions : Bool
deriving DecidableEq, Repr

/-- Candidate sample handed to `ECReact_RXNS.skip_sample` (the
`temp_sample` of `create_dataset`, lines 455-464). -/
structure CandSample where
  reactants : List String
  products : List String
  ec : String
  reaction_string : String
  protein_id : String
  sequence : Option String
  split : Option Split
  mapped_reaction : Option String
deriving DecidableEq, Repr

/-- `ECReact_RXNS.skip_sample` (ecreact.py lines 506-538). `molSize` is the
oracle for `rdkit.Chem.MolFromSmiles(mol).GetNumAtoms()`; the per-run
`self.mol2size` cache is get-or-compute over this pure function. Lines
520-521 read `if sample["mapped_reaction"] is None: True`: the branch body
is the bare expression `True`, which Python evaluates and discards, so that
test has no effect on the verdict and does not appear in the result. -/
def skip_sample (a : DArgs) (molSize : String → ℕ) (s : CandSample) : Bool :=
  if s.ec.data.contains '-' then true
  else if s.sequence = none ∨ (s.sequence.getD "").length = 0 then true
  else if (match a.max_protein_length with
           | some m => decide ((s.sequence.getD "").length > m)
           | none => false) then true
  else if (match a.max_reactant_size with
           | some m => s.reactants.any (fun mol => decide (molSize mol > m))
           | none => false) then true
  else if (match a.max_product_size with
           | some m => s.products.any (fun mol => decide (molSize mol > m))
           | none => false) then true
  else false

/-- `reactants = sorted(reaction["reactants"])` (line 449). -/
def sortedReactants (r : RxnRecord) : List String :=
  r.reactants.insertionSort (· ≤ ·)

/-- `reaction_string = ".".join(reactants) + ">>" + ".".join(products)`
(line 451). -/
def rxnStringOf (r : RxnRecord) : String :=
  joinDots (sortedReactants r) ++ ">>" ++ joinDots r.products

/-- The surviving enzymes of one reaction record
(`ECReact_RXNS.create_dataset`, lines 448-470): reactants are sorted, and a
uniprot id survives when `skip_sample` rejects its candidate sample. -/
def validUniprots (a : DArgs) (molSize : String → ℕ)
    (ec2uniprot : String → List String) (uniprot2sequence : String → Option String)
    (r : RxnRecord) : List String :=
  (ec2uniprot r.ec).filter (fun u => !(skip_sample a molSize
    { reactants := sortedReactants r, products := r.products, ec := r.ec,
      reaction_string := rxnStringOf r, protein_id := u,
      sequence := uniprot2sequence u, split := r.split,
      mapped_reaction := r.mapped_reaction }))

/-- One stored sample of `ECReact_RXNS.create_dataset` (lines 478-492).
Note the stored dict has no `sample_id` and no `protein_id` key. -/
structure SampleRXNS where
  reactants : List String
  products : List String
  ec : String
  split : Option Split
  reaction_string : String
  rowid : ℕ
  mapped_reaction : Option String
  mapped_recoverable_reaction : Option String
  bond_changes : Option String
  mapped_reactants : Option String
  mapped_products : Option String
deriving DecidableEq, Repr

/-- Per-reaction step of `ECReact_RXNS.create_dataset` (lines 441-504):
`none` when the reaction contributes no dataset row. `atomMap` is the
oracle for `get_atom_mapped_reaction(reaction_string, args)`; when
`args.atom_map_reactions` is set and it returns `None` the reaction is
dropped (lines 494-499). -/
def create_dataset_row (a : DArgs) (molSize : String → ℕ)
    (ec2uniprot : String → List String) (uniprot2sequence : String → Option String)
    (atomMap : String → Option String) (rowid : ℕ) (r : RxnRecord) :
    Option SampleRXNS :=
  if validUniprots a molSize ec2uniprot uniprot2sequence r = [] then none
  else
    let s : SampleRXNS :=
      { reactants := sortedReactants r, products := r.products, ec := r.ec,
        split := r.split, reaction_string := rxnStringOf r, rowid := rowid,
        mapped_reaction := r.mapped_reaction,
        mapped_recoverable_reaction := r.mapped_recoverable_reaction,
        bond_changes := r.bond_changes, mapped_reactants := r.mapped_reactants,
        mapped_products := r.mapped_products }
    if a.atom_map_reactions then
      match atomMap (rxnStringOf r) with
      | none => none
      | some m => some { s with mapped_reaction := some m }
    else some s

/-- C6: the verdict of `ECReact_RXNS.skip_sample` is independent of the
candidate's `mapped_reaction` field (the `is None` condition at lines
520-521 is a no-op, so a candidate lacking an atom-mapped reaction is not
rejected by the predicate), and a reaction lacking an atom-mapped form is
dropped from the built dataset only when `args.atom_map_reactions` is set,
via the separate check in `create_dataset`. -/
theorem c6_skip_mapped_noop (a : DArgs) (molSize : String → ℕ)
    (ec2uniprot : String → List String) (uniprot2sequence : String → Option String)
    (atomMap : String → Option String) (rowid : ℕ)
    (s : CandSample) (m : Option String) (r : RxnRecord) :
    skip_sample a molSize { s with mapped_reaction := m } = skip_sample a molSize s ∧
    (a.atom_map_reactions = true →
      atomMap (rxnStringOf r) = none →
      create_dataset_row a molSize ec2uniprot uniprot2sequence atomMap rowid r = none) ∧
    (a.atom_map_reactions = false →
      ((create_dataset_row a molSize ec2uniprot uniprot2sequence atomMap rowid r).isSome ↔
        validUniprots a molSize ec2uniprot uniprot2sequence r ≠ [])) := by
  refine ⟨rfl, ?_, ?_⟩
  · intro h1 h2
    by_cases hv : validUniprots a molSize ec2uniprot uniprot2sequence r = [] <;>
      simp [create_dataset_row, h1, h2, hv]
  · intro h1
    by_cases hv : validUniprots a molSize ec2uniprot uniprot2sequence r = [] <;>
      simp [create_dataset_row, h1, hv]

/-- Arguments for the C6 witness: atom mapping requested. -/
def aC6 : DArgs :=
  { split_type := "random", ec_level := 1, max_protein_length := none,
    max_reactant_size := none, max_product_size := none,
    atom_map_reactions := true }

/-- Witness for C6 at a concrete input: with atom mapping requested and the
mapper returning `None`, the reaction contributes no dataset row. -/
theorem c6_skip_mapped_noop_witness :
    create_dataset_row aC6 (fun _ => 1) (fun _ => ["P1"]) (fun _ => some "SEQ")
      (fun _ => none) 0 (mkRxn "1.1.1.1" ["C"] ["O"] none) = none :=
  (c6_skip_mapped_noop aC6 (fun _ => 1) (fun _ => ["P1"]) (fun _ => some "SEQ")
      (fun _ => none) 0
      { reactants := [], products := [], ec := "1.1.1.1", reaction_string := "",
        protein_id := "P1", sequence := some "SEQ", split := none,
        mapped_reaction := none }
      none (mkRxn "1.1.1.1" ["C"] ["O"] none)).2.1 rfl rfl

/-- Python dict indexing `d[k]` on an association list: absent keys raise
`KeyError`. -/
def pyGet (d : List (String × α)) (k : String) : Except PyErr α :=
  match d.lookup k with
  | some v => Except.ok v
  | none => Except.error (PyErr.keyError k)

/-- String rendering of an optional value, `"None"` when absent (the exact
rendering is irrelevant to the claims; only key presence matters). -/
def optStr : Option String → String
  | none => "None"
  | some s => s

/-- Rendering of a split label. -/
def splitStr : Split → String
  | Split.train => "train"
  | Split.dev => "dev"
  | Split.test => "test"

/-- Dict view of a sample stored by `ECReact_RXNS.create_dataset` (lines
478-492): exactly the keys the `sample = { ... }` literal assigns. In
particular there is no `"sample_id"` and no `"protein_id"` entry. -/
def sampleDictRXNS (s : SampleRXNS) : List (String × String) :=
  [("reactants", joinDots s.reactants), ("products", joinDots s.products),
   ("ec", s.ec), ("split", optStr (s.split.map splitStr)),
   ("reaction_string", s.reaction_string), ("rowid", toString s.rowid),
   ("mapped_reaction", optStr s.mapped_reaction),
   ("mapped_recoverable_reaction", optStr s.mapped_recoverable_reaction),
   ("bond_changes", optStr s.bond_changes),
   ("mapped_reactants", optStr s.mapped_reactants),
   ("mapped_products", optStr s.mapped_products)]

/-- The item assembled by a successful `__getitem__` run (only the fields
relevant to the modelled claims). -/
structure Item where
  reaction : String
  reactants : String
  products : String
  sequence : String
  ec : String
  protein_id : String
  sample_id : String
deriving DecidableEq, Repr

/-- The `warnings.warn` message of the `__getitem__` handlers. -/
def warnCouldNotLoad (sid : String) : String := "Could not load sample: " ++ sid

/-- Exception wrapper of `ECReact_RXNS.__getitem__` (ecreact.py lines
612-715): `try: ...; return item` and
`except Exception: warnings.warn(f"Could not load sample: {sample['sample_id']}")`,
returning `None`. The handler itself performs the dict access
`sample["sample_id"]` on the stored sample. The result pairs the returned
value with the emitted warnings; `Except.error` means an uncaught
exception escapes the method. -/
def rxnsGetitem (s : SampleRXNS) (body : Except PyErr Item) :
    Except PyErr (Option Item × List String) :=
  match body with
  | Except.ok it => Except.ok (some it, [])
  | Except.error _ =>
      match pyGet (sampleDictRXNS s) "sample_id" with
      | Except.ok sid => Except.ok (none, [warnCouldNotLoad sid])
      | Except.error e => Except.error e

/-- C2 (code bug): whenever the body of `ECReact_RXNS.__getitem__` raises,
the `except` handler does not warn-and-return-`None` as intended: it
evaluates `sample["sample_id"]`, a key `create_dataset` never stores, so
the handler itself raises `KeyError` and the exception escapes. -/
theorem c2_handler_raises_keyerror (s : SampleRXNS) (e : PyErr) :
    rxnsGetitem s (Except.error e) = Except.error (PyErr.keyError "sample_id") := by
  rfl

/-- Splitting a character list at every occurrence of the separator `c`,
keeping empty segments: the semantics of Python `str.split` (and of
`String.splitOn`) for a one-character separator, written structurally. -/
def splitOnChar (c : Char) : List Char → List (List Char)
  | [] => [[]]
  | x :: xs =>
    match splitOnChar c xs with
    | [] => if x = c then [[], []] else [[x]]
    | h :: t => if x = c then [] :: h :: t else (x :: h) :: t

/-- `ec.split(".")`. -/
def splitDots (ec : String) : List String :=
  (splitOnChar '.' ec.data).map (fun l => String.mk l)

/-- `".".join(ec.split(".")[: ec_level + 1])` (ecreact.py line 548). -/
def ecLevelKey (lvl : ℕ) (ec : String) : String :=
  joinDots ((splitDots ec).take (lvl + 1))

/-- Lazy evaluation of
`any(self.to_split[p] != split_group for p in products)` (line 560):
Python raises `KeyError` at the first missing product encountered before a
mismatching one. -/
def anyNeqSplit (toSplit : List (String × Split)) (sg : Split) :
    List String → Except PyErr Bool
  | [] => Except.ok false
  | p :: rest =>
    match pyGet toSplit p with
    | Except.error e => Except.error e
    | Except.ok sp => if sp ≠ sg then Except.ok true else anyNeqSplit toSplit sg rest

/-- Per-sample decision of `ECReact_RXNS.get_split_group_dataset` (lines
544-571): `ok true` keeps the sample, `ok false` skips it (`continue`),
`error` propagates a `KeyError`. The `mmseqs` and `sequence` branches read
`sample["protein_id"]` through the stored sample's dict view (the stored
samples have no such key). -/
def keepSample (a : DArgs) (toSplit : List (String × Split))
    (u2c : List (String × String)) (sg : Split) (s : SampleRXNS) :
    Except PyErr Bool :=
  if a.split_type = "ec" then
    match pyGet toSplit (ecLevelKey a.ec_level s.ec) with
    | Except.error e => Except.error e
    | Except.ok sp => Except.ok (decide (sp = sg))
  else if a.split_type = "mmseqs" then
    match pyGet (sampleDictRXNS s) "protein_id" with
    | Except.error e => Except.error e
    | Except.ok pid =>
      match pyGet u2c pid with
      | Except.error e => Except.error e
      | Except.ok cluster =>
        match pyGet toSplit cluster with
        | Except.error e => Except.error e
        | Except.ok sp => Except.ok (decide (sp = sg))
  else if a.split_type = "product" ∨ a.split_type = "recoverable_mapping_product" then
    match anyNeqSplit toSplit sg s.products with
    | Except.error e => Except.error e
    | Except.ok b => Except.ok (!b)
  else if a.split_type = "sequence" then
    match pyGet (sampleDictRXNS s) "protein_id" with
    | Except.error e => Except.error e
    | Except.ok pid =>
      match pyGet toSplit pid with
      | Except.error e => Except.error e
      | Except.ok sp => Except.ok (decide (sp = sg))
  else
    match s.split with
    | some sp => Except.ok (decide (sp = sg))
    | none => Except.ok true

/-- `ECReact_RXNS.get_split_group_dataset` (lines 540-572): samples are
processed in order and appended when kept; a raised `KeyError` aborts the
whole filter. -/
def get_split_group_dataset (a : DArgs) (toSplit : List (String × Split))
    (u2c : List (String × String)) (sg : Split) :
    List SampleRXNS → Except PyErr (List SampleRXNS)
  | [] => Except.ok []
  | s :: rest =>
    match keepSample a toSplit u2c sg s with
    | Except.error e => Except.error e
    | Except.ok keep =>
      match get_split_group_dataset a toSplit u2c sg rest with
      | Except.error e => Except.error e
      | Except.ok tail => Except.ok (if keep then s :: tail else tail)

/-- When every sample's per-sample decision succeeds with verdict
`pred s`, the filter returns exactly the `pred`-filtered dataset. -/
theorem gsgd_ok_of_keep (a : DArgs) (toSplit : List (String × Split))
    (u2c : List (String × String)) (sg : Split) (pred : SampleRXNS → Bool) :
    ∀ ds : List SampleRXNS,
      (∀ s ∈ ds, keepSample a toSplit u2c sg s = Except.ok (pred s)) →
      get_split_group_dataset a toSplit u2c sg ds = Except.ok (ds.filter pred) := by
  intro ds
  induction ds with
  | nil => intro _; rfl
  | cons s rest ih =>
    intro hall
    have hs := hall s (by simp)
    have htail := ih (fun t ht => hall t (by simp [ht]))
    simp only [get_split_group_dataset, hs, htail, List.filter_cons]

/-- A successful filter run only returns samples whose per-sample decision
was `ok true`: no sample is ever defaulted in. -/
theorem gsgd_sound_mem (a : DArgs) (toSplit : List (String × Split))
    (u2c : List (String × String)) (sg : Split) :
    ∀ (ds l : List SampleRXNS),
      get_split_group_dataset a toSplit u2c sg ds = Except.ok l →
      ∀ s ∈ l, keepSample a toSplit u2c sg s = Except.ok true := by
  intro ds
  induction ds with
  | nil =>
    intro l hl s hs
    simp only [get_split_group_dataset, Except.ok.injEq] at hl
    subst hl
    simp at hs
  | cons s0 rest ih =>
    intro l hl t ht
    cases hks : keepSample a toSplit u2c sg s0 with
    | error e =>
      simp only [get_split_group_dataset, hks] at hl
      exact absurd hl (by simp)
    | ok b =>
      cases hrest : get_split_group_dataset a toSplit u2c sg rest with
      | error e =>
        simp only [get_split_group_dataset, hks, hrest] at hl
        exact absurd hl (by simp)
      | ok tail =>
        simp only [get_split_group_dataset, hks, hrest, Except.ok.injEq] at hl
        subst hl
        cases b with
        | false => exact ih tail hrest t (by simpa using ht)
        | true =>
          rcases List.mem_cons.mp (by simpa using ht) with h | h
          · subst h
            exact hks
          · exact ih tail hrest t h

/-- When some sample's per-sample decision raises, and every possible
per-sample error on the dataset is a `KeyError`, the whole filter run
aborts with a `KeyError`. -/
theorem gsgd_error_keyError (a : DArgs) (toSplit : List (String × Split))
    (u2c : List (String × String)) (sg : Split) :
    ∀ ds : List SampleRXNS,
      (∀ s ∈ ds, ∀ e, keepSample a toSplit u2c sg s = Except.error e →
        ∃ k, e = PyErr.keyError k) →
      (∃ s ∈ ds, ∃ e, keepSample a toSplit u2c sg s = Except.error e) →
      ∃ k, get_split_group_dataset a toSplit u2c sg ds =
        Except.error (PyErr.keyError k) := by
  intro ds
  induction ds with
  | nil =>
    rintro _ ⟨s, hs, _⟩
    exact absurd hs (by simp)
  | cons s0 rest ih =>
    rintro hform ⟨t, ht, e, he⟩
    cases hks : keepSample a toSplit u2c sg s0 with
    | error e0 =>
      obtain ⟨k, rfl⟩ := hform s0 (by simp) e0 hks
      exact ⟨k, by simp only [get_split_group_dataset, hks]⟩
    | ok b =>
      have htrest : t ∈ rest := by
        rcases List.mem_cons.mp ht with h | h
        · subst h
          rw [hks] at he
          exact absurd he (by simp)
        · exact h
      obtain ⟨k, hk⟩ := ih (fun u hu => hform u (by simp [hu])) ⟨t, htrest, e, he⟩
      exact ⟨k, by simp only [get_split_group_dataset, hks, hk]⟩

/-- Under the `ec` strategy `keepSample` is the single dict access
`self.to_split[ec_key]` compared with the requested group. -/
theorem keepSample_ec_eq (a : DArgs) (toSplit : List (String × Split))
    (u2c : List (String × String)) (sg : Split) (s : SampleRXNS)
    (hec : a.split_type = "ec") :
    keepSample a toSplit u2c sg s =
      (match toSplit.lookup (ecLevelKey a.ec_level s.ec) with
       | some v => Except.ok (decide (v = sg))
       | none => Except.error (PyErr.keyError (ecLevelKey a.ec_level s.ec))) := by
  unfold keepSample pyGet
  rw [if_pos hec]
  cases toSplit.lookup (ecLevelKey a.ec_level s.ec) <;> rfl

/-- Under the product strategies `keepSample` negates the lazy
`any(self.to_split[p] != split_group ...)` scan. -/
theorem keepSample_product_eq (a : DArgs) (toSplit : List (String × Split))
    (u2c : List (String × String)) (sg : Split) (s : SampleRXNS)
    (hp : a.split_type = "product" ∨ a.split_type = "recoverable_mapping_product") :
    keepSample a toSplit u2c sg s =
      (match anyNeqSplit toSplit sg s.products with
       | Except.error e => Except.error e
       | Except.ok b => Except.ok (!b)) := by
  rcases hp with h | h <;>
    · unfold keepSample
      rw [h]
      rfl

/-- Under the `mmseqs` and `sequence` strategies `keepSample` starts with
the dict access `sample["protein_id"]`; the samples stored by
`ECReact_RXNS.create_dataset` have no such key, so it always raises. -/
theorem keepSample_protein_id (a : DArgs) (toSplit : List (String × Split))
    (u2c : List (String × String)) (sg : Split) (s : SampleRXNS)
    (h : a.split_type = "mmseqs" ∨ a.split_type = "sequence") :
    keepSample a toSplit u2c sg s = Except.error (PyErr.keyError "protein_id") := by
  rcases h with h | h <;>
    · unfold keepSample
      rw [h]
      rfl

/-- The product scan returns `ok false` exactly when every product key is
present and maps to the requested group. -/
theorem anyNeqSplit_ok_false_iff (toSplit : List (String × Split)) (sg : Split) :
    ∀ ps : List String,
      anyNeqSplit toSplit sg ps = Except.ok false ↔
        ∀ p ∈ ps, toSplit.lookup p = some sg := by
  intro ps
  induction ps with
  | nil => simp [anyNeqSplit]
  | cons p rest ih =>
    simp only [anyNeqSplit, pyGet]
    cases hl : toSplit.lookup p with
    | none => simp [hl, List.forall_mem_cons]
    | some v =>
      by_cases hv : v = sg
      · subst hv
        simp [ih, hl, List.forall_mem_cons]
      · simp [hv, hl, List.forall_mem_cons]

/-- With every product key present, the product scan succeeds with the
complement of the all-mapped-to-`sg` verdict. -/
theorem anyNeqSplit_of_present (toSplit : List (String × Split)) (sg : Split) :
    ∀ ps : List String,
      (∀ p ∈ ps, (toSplit.lookup p).isSome) →
      anyNeqSplit toSplit sg ps =
        Except.ok (!decide (∀ p ∈ ps, toSplit.lookup p = some sg)) := by
  intro ps
  induction ps with
  | nil => intro _; simp [anyNeqSplit]
  | cons p rest ih =>
    intro hall
    obtain ⟨v, hv⟩ := Option.isSome_iff_exists.mp (hall p (by simp))
    have hrest := ih (fun q hq => hall q (by simp [hq]))
    simp only [anyNeqSplit, pyGet, hv]
    by_cases hvs : v = sg
    · rw [if_neg (fun hcon => hcon hvs), hrest]
      have hiff : (∀ q ∈ p :: rest, toSplit.lookup q = some sg) ↔
          (∀ q ∈ rest, toSplit.lookup q = some sg) := by
        simp [List.forall_mem_cons, hv, hvs]
      rw [decide_eq_decide.mpr hiff]
    · rw [if_pos hvs]
      have hfalse : ¬ (∀ q ∈ p :: rest, toSplit.lookup q = some sg) := by
        intro hq
        have := hq p (by simp)
        rw [hv] at this
        exact hvs (by injection this)
      rw [decide_eq_false hfalse]
      rfl

/-- A product key found missing before any mismatching one raises
`KeyError` for that key. -/
theorem anyNeqSplit_error_of_prefix (toSplit : List (String × Split)) (sg : Split) :
    ∀ (pre : List String) (p : String) (post : List String),
      (∀ q ∈ pre, toSplit.lookup q = some sg) →
      toSplit.lookup p = none →
      anyNeqSplit toSplit sg (pre ++ p :: post) =
        Except.error (PyErr.keyError p) := by
  intro pre
  induction pre with
  | nil =>
    intro p post _ hp
    simp [anyNeqSplit, pyGet, hp]
  | cons q pre2 ih =>
    intro p post hpre hp
    have hq := hpre q (by simp)
    simp only [List.cons_append, anyNeqSplit, pyGet, hq]
    rw [if_neg (fun hcon => hcon rfl)]
    exact ih p post (fun r hr => hpre r (by simp [hr])) hp

/-- The only exceptions the product scan raises are `KeyError`s. -/
theorem anyNeqSplit_error_form (toSplit : List (String × Split)) (sg : Split) :
    ∀ (ps : List String) (e : PyErr),
      anyNeqSplit toSplit sg ps = Except.error e → ∃ k, e = PyErr.keyError k := by
  intro ps
  induction ps with
  | nil =>
    intro e he
    exact absurd he (by simp [anyNeqSplit])
  | cons p rest ih =>
    intro e he
    cases hl : toSplit.lookup p with
    | none =>
      simp only [anyNeqSplit, pyGet, hl] at he
      exact ⟨p, by injection he with h; exact h.symm⟩
    | some v =>
      simp only [anyNeqSplit, pyGet, hl] at he
      by_cases hv : v ≠ sg
      · rw [if_pos hv] at he
        exact absurd he (by simp)
      · rw [if_neg hv] at he
        exact ih e he

/-- C3 (amended): in `ECReact_RXNS.get_split_group_dataset`, a sample whose
derived split key is absent from the precomputed split map is never
defaulted into a split, but contrary to the claim it is not silently
excluded: the plain dict access raises `KeyError`. Per derived key kind:
under the `ec` strategy, when every sample's truncated-EC key is present
the filter returns exactly the samples whose key maps to the requested
group, and any absent key makes the filter raise a `KeyError`; under the
`product` and `recoverable_mapping_product` strategies the same holds with
"every product maps to the requested group" as the keep condition, a
successful run never contains a sample having an absent or
differently-mapped product key, and a product key found missing before any
mismatching one makes the filter raise a `KeyError`; under the `mmseqs`
and `sequence` (enzyme-id / cluster-id) strategies the filter first reads
`sample["protein_id"]`, a key the stored samples do not have, so on any
nonempty dataset it raises `KeyError("protein_id")` regardless of the
split map. -/
theorem c3_split_filter_amended (a : DArgs) (toSplit : List (String × Split))
    (u2c : List (String × String)) (sg : Split) (ds : List SampleRXNS) :
    (a.split_type = "ec" →
      ((∀ s ∈ ds, (toSplit.lookup (ecLevelKey a.ec_level s.ec)).isSome) →
        get_split_group_dataset a toSplit u2c sg ds =
          Except.ok (ds.filter (fun s =>
            decide (toSplit.lookup (ecLevelKey a.ec_level s.ec) = some sg)))) ∧
      ((∃ s ∈ ds, toSplit.lookup (ecLevelKey a.ec_level s.ec) = none) →
        ∃ k, get_split_group_dataset a toSplit u2c sg ds =
          Except.error (PyErr.keyError k))) ∧
    ((a.split_type = "product" ∨ a.split_type = "recoverable_mapping_product") →
      ((∀ s ∈ ds, ∀ p ∈ s.products, (toSplit.lookup p).isSome) →
        get_split_group_dataset a toSplit u2c sg ds =
          Except.ok (ds.filter (fun s =>
            decide (∀ p ∈ s.products, toSplit.lookup p = some sg)))) ∧
      (∀ l, get_split_group_dataset a toSplit u2c sg ds = Except.ok l →
        ∀ s ∈ l, ∀ p ∈ s.products, toSplit.lookup p = some sg) ∧
      ((∃ s ∈ ds, ∃ pre p post, s.products = pre ++ p :: post ∧
          (∀ q ∈ pre, toSplit.lookup q = some sg) ∧
          toSplit.lookup p = none) →
        ∃ k, get_split_group_dataset a toSplit u2c sg ds =
          Except.error (PyErr.keyError k))) ∧
    ((a.split_type = "mmseqs" ∨ a.split_type = "sequence") → ds ≠ [] →
      get_split_group_dataset a toSplit u2c sg ds =
        Except.error (PyErr.keyError "protein_id")) := by
  refine ⟨fun hec => ⟨?_, ?_⟩, fun hp => ⟨?_, ?_, ?_⟩, fun hms hne => ?_⟩
  · intro hall
    apply gsgd_ok_of_keep
    intro s hs
    obtain ⟨v, hv⟩ := Option.isSome_iff_exists.mp (hall s hs)
    rw [keepSample_ec_eq a toSplit u2c sg s hec, hv]
    show Except.ok (decide (v = sg)) = _
    congr 1
    exact decide_eq_decide.mpr (by simp)
  · intro hex
    apply gsgd_error_keyError
    · intro s _ e he
      rw [keepSample_ec_eq a toSplit u2c sg s hec] at he
      cases hl : toSplit.lookup (ecLevelKey a.ec_level s.ec) with
      | some v =>
        rw [hl] at he
        exact absurd he (by simp)
      | none =>
        rw [hl] at he
        refine ⟨ecLevelKey a.ec_level s.ec, ?_⟩
        change Except.error (PyErr.keyError (ecLevelKey a.ec_level s.ec)) =
          Except.error e at he
        injection he with h
        exact h.symm
    · obtain ⟨s, hs, hnone⟩ := hex
      refine ⟨s, hs, PyErr.keyError (ecLevelKey a.ec_level s.ec), ?_⟩
      rw [keepSample_ec_eq a toSplit u2c sg s hec, hnone]
  · intro hall
    apply gsgd_ok_of_keep
    intro s hs
    rw [keepSample_product_eq a toSplit u2c sg s hp,
      anyNeqSplit_of_present toSplit sg s.products (hall s hs)]
    simp
  · intro l hl s hsl p hps
    have hk := gsgd_sound_mem a toSplit u2c sg ds l hl s hsl
    rw [keepSample_product_eq a toSplit u2c sg s hp] at hk
    cases han : anyNeqSplit toSplit sg s.products with
    | error e =>
      rw [han] at hk
      exact absurd hk (by simp)
    | ok b =>
      rw [han] at hk
      have hb : b = false := by
        cases b
        · rfl
        · exact absurd hk (by simp)
      subst hb
      exact (anyNeqSplit_ok_false_iff toSplit sg s.products).mp han p hps
  · intro hex
    apply gsgd_error_keyError
    · intro s _ e he
      rw [keepSample_product_eq a toSplit u2c sg s hp] at he
      cases han : anyNeqSplit toSplit sg s.products with
      | error e0 =>
        rw [han] at he
        obtain ⟨k, hk⟩ := anyNeqSplit_error_form toSplit sg s.products e0 han
        refine ⟨k, ?_⟩
        change Except.error e0 = Except.error e at he
        injection he with h
        rw [← h]
        exact hk
      | ok b =>
        rw [han] at he
        exact absurd he (by simp)
    · obtain ⟨s, hs, pre, p, post, hsplit, hpre, hp0⟩ := hex
      refine ⟨s, hs, PyErr.keyError p, ?_⟩
      rw [keepSample_product_eq a toSplit u2c sg s hp, hsplit,
        anyNeqSplit_error_of_prefix toSplit sg pre p post hpre hp0]
  · obtain ⟨s0, rest, rfl⟩ := List.exists_cons_of_ne_nil hne
    simp only [get_split_group_dataset,
      keepSample_protein_id a toSplit u2c sg s0 hms]

/-- Arguments selecting the `ec` split strategy at level 1. -/
def aC3 : DArgs :=
  { split_type := "ec", ec_level := 1, max_protein_length := none,
    max_reactant_size := none, max_product_size := none,
    atom_map_reactions := false }

/-- Arguments selecting the `mmseqs` split strategy. -/
def aMmC3 : DArgs :=
  { split_type := "mmseqs", ec_level := 1, max_protein_length := none,
    max_reactant_size := none, max_product_size := none,
    atom_map_reactions := false }

/-- A stored sample with EC `1.1.3.4` (derived split key `1.1`). -/
def sC3 : SampleRXNS :=
  { reactants := ["C"], products := ["O"], ec := "1.1.3.4", split := none,
    reaction_string := "C>>O", rowid := 0, mapped_reaction := none,
    mapped_recoverable_reaction := none, bond_changes := none,
    mapped_reactants := none, mapped_products := none }

/-- Counterexample to C3 as stated: with an empty split map, the sample's
derived key `1.1` is absent, and the filter raises `KeyError` instead of
implicitly excluding the sample. -/
theorem c3_absent_key_raises_cex :
    get_split_group_dataset aC3 [] [] Split.train [sC3] =
      Except.error (PyErr.keyError "1.1") := by
  rfl

/-- Witness for the amended C3 at concrete inputs: under `ec` with the
derived key present the filter returns exactly the matching samples, and
under `mmseqs` it raises `KeyError("protein_id")` on the same sample. -/
theorem c3_split_filter_amended_witness :
    (get_split_group_dataset aC3 [("1.1", Split.train)] [] Split.train [sC3] =
      Except.ok [sC3]) ∧
    (get_split_group_dataset aMmC3 [] [] Split.train [sC3] =
      Except.error (PyErr.keyError "protein_id")) :=
  ⟨(((c3_split_filter_amended aC3 [("1.1", Split.train)] [] Split.train
        [sC3]).1 rfl).1 (by decide)).trans (congrArg Except.ok (by rfl)),
   (c3_split_filter_amended aMmC3 [] [] Split.train [sC3]).2.2 (Or.inl rfl)
     (by decide)⟩

/-- Left-to-right evaluation of a Python list comprehension
`[f(s) for s in l]` over a fallible `f`: the first exception aborts the
whole comprehension, before the target name is rebound. -/
def mapExceptList (f : String → Except Unit String) :
    List String → Except Unit (List String)
  | [] => Except.ok []
  | s :: rest =>
    match f s with
    | Except.error e => Except.error e
    | Except.ok v =>
      match mapExceptList f rest with
      | Except.error e => Except.error e
      | Except.ok vs => Except.ok (v :: vs)

/-- Reaction string `".".join(reactants) + ">>" + ".".join(products)`. -/
def mkReaction (rs ps : List String) : String := joinDots rs ++ ">>" ++ joinDots ps

/-- Inner SMILES re-randomization block of `__getitem__` (ecreact.py lines
644-650; the identical block appears at ecreact.py 186-192 and
reactions.py 55-60): inside `try`, first the reactants comprehension over
`randomize_smiles_rotated` runs, then the products comprehension, then the
reaction string is rebuilt; `except: pass` swallows any exception and emits
no warning. The first comprehension rebinds `reactants` only if it
completes, so an exception in the products comprehension keeps the rebound
reactants while `products` and `reaction` stay unchanged. `rand` is the
oracle for `randomize_smiles_rotated`; the second component of the result
is the (always empty) warning list of this block. -/
def randomizeSmilesStep (rand : String → Except Unit String)
    (reactants products : List String) (reaction : String) :
    (List String × List String × String) × List String :=
  match mapExceptList rand reactants with
  | Except.error _ => ((reactants, products, reaction), [])
  | Except.ok rs =>
    match mapExceptList rand products with
    | Except.error _ => ((rs, products, reaction), [])
    | Except.ok ps => ((rs, ps, mkReaction rs ps), [])

/-- C8 (amended): when rewriting the reactants raises, the sample does not
fail, no warning is emitted, and all of reaction, reactants and products
keep their unmodified values; but when the reactants comprehension succeeds
and rewriting the products raises, the reactants variable keeps the rebound
randomized list while only reaction and products stay unmodified. -/
theorem c8_randomize_fallback (rand : String → Except Unit String)
    (reactants products : List String) (reaction : String) :
    ((∃ e, mapExceptList rand reactants = Except.error e) →
      randomizeSmilesStep rand reactants products reaction =
        ((reactants, products, reaction), [])) ∧
    (∀ rs, mapExceptList rand reactants = Except.ok rs →
      (∃ e, mapExceptList rand products = Except.error e) →
      randomizeSmilesStep rand reactants products reaction =
        ((rs, products, reaction), [])) := by
  constructor
  · rintro ⟨e, he⟩
    unfold randomizeSmilesStep
    rw [he]
  · rintro rs hrs ⟨e, he⟩
    unfold randomizeSmilesStep
    rw [hrs, he]

/-- A `randomize_smiles_rotated` oracle that fails on the SMILES `"O"` and
rewrites every other molecule. -/
def cexRand : String → Except Unit String :=
  fun s => if s = "O" then Except.error () else Except.ok (s ++ "X")

/-- Counterexample to C8 as stated: rewriting the product `"O"` raises, yet
the produced reactants field is the randomized `["CX"]`, not the
unmodified `["C"]` — only reaction and products fall back. -/
theorem c8_partial_randomize_cex :
    cexRand "O" = Except.error () ∧
    randomizeSmilesStep cexRand ["C"] ["O"] "C>>O" =
      ((["CX"], ["O"], "C>>O"), []) ∧
    (randomizeSmilesStep cexRand ["C"] ["O"] "C>>O").1.1 ≠ ["C"] :=
  ⟨rfl, rfl, by decide⟩

/-- Witness for the amended C8: a failure already in the reactants
comprehension leaves every field unmodified and emits no warning. -/
theorem c8_randomize_fallback_witness :
    randomizeSmilesStep cexRand ["O"] ["C"] "O>>C" = ((["O"], ["C"], "O>>C"), []) :=
  (c8_randomize_fallback cexRand ["O"] ["C"] "O>>C").1 ⟨(), rfl⟩

/-- Configuration flags of `self.args` read by `ECReact.__getitem__`. -/
structure ArgsEC where
  use_residues_in_reaction : Bool
  randomize_order_in_reaction : Bool
  use_random_smiles_representation : Bool
deriving DecidableEq, Repr

/-- One stored sample of `ECReact.create_dataset` (ecreact.py lines 72-90);
unlike the `ECReact_RXNS` samples these do carry `sample_id`. The
`sequence` entry is deleted again when `split_type != "random"`
(lines 95-96); its presence is irrelevant to the modelled claims. -/
structure SampleEC where
  protein_id : String
  sequence : Option String
  reactants : List String
  products : List String
  ec : String
  reaction_string : String
  sample_id : String
  split : Option Split
  residues : List String
  has_residues : Bool
  residue_positions : List ℕ
deriving DecidableEq, Repr

/-- Dict view of an `ECReact.create_dataset` sample, in assignment order. -/
def sampleDictEC (s : SampleEC) : List (String × String) :=
  [("protein_id", s.protein_id), ("sequence", optStr s.sequence),
   ("reactants", joinDots s.reactants), ("products", joinDots s.products),
   ("ec", s.ec), ("reaction_string", s.reaction_string),
   ("sample_id", s.sample_id), ("split", optStr (s.split.map splitStr)),
   ("residues", joinDots s.residues),
   ("has_residues", toString s.has_residues),
   ("residue_positions", joinDots (s.residue_positions.map toString))]

/-- Body of `ECReact.__getitem__` (ecreact.py lines 164-232). `shuf` stands
for `np.random.shuffle` and `rand` for `randomize_smiles_rotated`. The item
dict literal at lines 194-208 evaluates its values in order: `reaction`,
`reactants` and `products` are bound locals, but the value for the
`sequence` entry is the bare name `sequence` (line 198), which the method
never assigns (`uniprot_id` at line 201 is likewise unassigned), so CPython
raises `NameError` when the dict is evaluated, under every configuration.
The two never-assigned locals are modelled as `none`. -/
def ecGetitemBody (a : ArgsEC) (shuf : List String → List String)
    (rand : String → Except Unit String) (s : SampleEC) : Except PyErr Item :=
  let reactants := s.reactants
  let products := s.products
  let reactants := if a.use_residues_in_reaction then reactants ++ s.residues
                   else reactants
  let products := if a.use_residues_in_reaction then products ++ s.residues
                  else products
  let reaction := mkReaction reactants products
  let step1 :=
    if a.randomize_order_in_reaction then
      let rs := shuf reactants
      let ps := shuf products
      (rs, ps, mkReaction rs ps)
    else (reactants, products, reaction)
  let step2 :=
    if a.use_random_smiles_representation then
      (randomizeSmilesStep rand step1.1 step1.2.1 step1.2.2).1
    else step1
  let sequenceVar : Option String := none
  let uniprotIdVar : Option String := none
  match sequenceVar with
  | none => Except.error (PyErr.nameError "sequence")
  | some sequence =>
    match uniprotIdVar with
    | none => Except.error (PyErr.nameError "uniprot_id")
    | some uniprot_id =>
      Except.ok { reaction := step2.2.2, reactants := joinDots step2.1,
                  products := joinDots step2.2.1, sequence := sequence,
                  ec := s.ec, protein_id := uniprot_id,
                  sample_id := s.sample_id }

/-- Exception wrapper of `ECReact.__getitem__` (lines 164-235): on any
exception the handler warns with the sample's `sample_id` (present in
these samples) and returns `None`. -/
def ecGetitem (a : ArgsEC) (shuf : List String → List String)
    (rand : String → Except Unit String) (s : SampleEC) :
    Except PyErr (Option Item × List String) :=
  match ecGetitemBody a shuf rand s with
  | Except.ok it => Except.ok (some it, [])
  | Except.error _ =>
      match pyGet (sampleDictEC s) "sample_id" with
      | Except.ok sid => Except.ok (none, [warnCouldNotLoad sid])
      | Except.error e => Except.error e

/-- C10: for every configuration, every augmentation oracle and every
stored sample, `ECReact.__getitem__` returns the empty result `None` and
emits the could-not-load warning: the item construction reads the names
`sequence` and `uniprot_id`, never bound in the method's scope, so item
assembly always raises and the handler is always taken. -/
theorem c10_ecreact_getitem_always_none (a : ArgsEC)
    (shuf : List String → List String) (rand : String → Except Unit String)
    (s : SampleEC) :
    ecGetitem a shuf rand s =
      Except.ok (none, [warnCouldNotLoad s.sample_id]) := rfl

/-- State of the global `numpy` generator: seeded value plus a call
counter. The concrete Mersenne-Twister behaviour is irrelevant to the
claims; only that every draw is a deterministic function of this state. -/
structure NpRng where
  seedVal : ℕ
  calls : ℕ
deriving DecidableEq, Repr

/-- `np.random.seed(seed)`: the global generator state is replaced by a
state determined by the seed alone. -/
def npSeed (s : ℕ) : NpRng := { seedVal := s, calls := 0 }

/-- Model of the `numpy` draws used by `assign_splits`: `shuffle` stands
for `np.random.shuffle` and `choice3` for
`np.random.choice(["train","dev","test"], p=split_probs)`; both are
deterministic functions of the generator state, which they advance. The
theorems below hold for every such model. -/
structure RngModel where
  shuffle : NpRng → List String → List String × NpRng
  choice3 : NpRng → ℚ × ℚ × ℚ → Split × NpRng

/-- Python dict update `d[k] = v` on an association list. -/
def dictUpdate (m : List (String × Split)) (k : String) (v : Split) :
    List (String × Split) :=
  if m.any (fun kv => kv.1 == k) then
    m.map (fun kv => if kv.1 == k then (kv.1, v) else kv)
  else m ++ [(k, v)]

/-- `self.to_split.update(...)` over a list of keys sharing one value. -/
def dictUpdates (m : List (String × Split)) (ks : List String) (v : Split) :
    List (String × Split) :=
  ks.foldl (fun acc k => dictUpdate acc k v) m

/-- `ECReact_RXNS.assign_splits` (ecreact.py lines 324-432), all
strategies, with the global `numpy` generator threaded explicitly: the
method first executes `np.random.seed(seed)` (line 332), discarding the
incoming state `g0`. `clusterVals` is `self.uniprot2cluster.values()`;
`ec2uniprot` is the EC-to-uniprot index. The result pairs the built
`self.to_split` map (or the raised error, in which case no entity receives
an assignment) with the final generator state. -/
def assign_splits_run (a : DArgs) (clusterVals : List String)
    (ec2uniprot : String → List String) (meta : List RxnRecord)
    (probs : ℚ × ℚ × ℚ) (seed : ℕ) (rng : RngModel) (g0 : NpRng) :
    Except PyErr (List (String × Split)) × NpRng :=
  let g := npSeed seed
  if a.split_type = "mmseqs" ∨ a.split_type = "sequence" ∨
     a.split_type = "ec" ∨ a.split_type = "product" then
    let samplesE : Except PyErr (List String) :=
      if a.split_type = "mmseqs" then Except.ok clusterVals
      else if a.split_type = "sequence" then
        Except.ok (meta.flatMap (fun r => ec2uniprot r.ec))
      else if a.split_type = "ec" then
        Except.ok (meta.map (fun r => ecLevelKey a.ec_level r.ec))
      else
        if meta.any (fun r => decide (r.products.length > 1)) then
          Except.error (PyErr.notImplementedError
            "Product split not implemented for multi-products")
        else Except.ok (meta.flatMap (fun r => r.products))
    match samplesE with
    | Except.error e => (Except.error e, g)
    | Except.ok samples0 =>
      let sorted := (samples0.dedup).insertionSort (· ≤ ·)
      let sg := rng.shuffle g sorted
      let shuffled := sg.1
      let n := shuffled.length
      let m1 := dictUpdates [] (pySlice shuffled 0 ⌈probs.1 * n⌉) Split.train
      let m2 := dictUpdates m1
        (pySlice shuffled ⌈probs.1 * n⌉ ⌈(probs.1 + probs.2.1) * n⌉) Split.dev
      let m3 := dictUpdates m2
        (pySlice shuffled ⌈(probs.1 + probs.2.1) * n⌉
          ⌈(probs.1 + probs.2.1 + probs.2.2) * n⌉) Split.test
      (Except.ok m3, sg.2)
  else if a.split_type = "recoverable_mapping_product" then
    let names := (rmpRecoverableKeys meta).insertionSort (· ≤ ·)
    let sg := rng.shuffle g names
    let shuffled := sg.1
    let m1 := dictUpdates [] (rmpTestProducts meta shuffled probs.2.2) Split.test
    let m2 := dictUpdates m1
      (rmpDevProducts meta shuffled probs.2.2 probs.2.1) Split.dev
    let m3 := dictUpdates m2
      (rmpTrainProducts meta shuffled probs.2.2 probs.2.1) Split.train
    (Except.ok m3, sg.2)
  else if a.split_type = "random" then
    let res := meta.foldl
      (fun (acc : List (String × Split) × NpRng) r =>
        let rs := joinDots r.reactants ++ ">>" ++ joinDots r.products
        let cg := rng.choice3 acc.2 probs
        (dictUpdate acc.1 rs cg.1, cg.2)) ([], g)
    (Except.ok res.1, res.2)
  else
    (Except.error (PyErr.valueError "Split type not supported"), g)

/-- C7: for every fixed seed, split type, split proportions and input
metadata — and every deterministic generator model — two invocations of
`assign_splits` produce identical split maps, whatever the global
generator state was before each call: `np.random.seed(seed)` at the start
makes the assignment a function of seed and input alone, for every
supported strategy including the reaction-level `random` strategy. -/
theorem c7_assign_splits_deterministic (a : DArgs) (clusterVals : List String)
    (ec2uniprot : String → List String) (meta : List RxnRecord)
    (probs : ℚ × ℚ × ℚ) (seed : ℕ) (rng : RngModel) (g1 g2 : NpRng) :
    (assign_splits_run a clusterVals ec2uniprot meta probs seed rng g1).1 =
      (assign_splits_run a clusterVals ec2uniprot meta probs seed rng g2).1 := rfl

/-- C9: `assign_splits` aborts with `ValueError` when the configured split
type is unsupported, and under the `product` strategy with
`NotImplementedError` when any metadata record has more than one product;
in both cases the result is the raised error, so no entity receives a
split assignment. -/
theorem c9_assign_splits_fatal (a : DArgs) (clusterVals : List String)
    (ec2uniprot : String → List String) (meta : List RxnRecord)
    (probs : ℚ × ℚ × ℚ) (seed : ℕ) (rng : RngModel) (g : NpRng) :
    (a.split_type ∉ ["mmseqs", "sequence", "ec", "product",
        "recoverable_mapping_product", "random"] →
      (assign_splits_run a clusterVals ec2uniprot meta probs seed rng g).1 =
        Except.error (PyErr.valueError "Split type not supported")) ∧
    (a.split_type = "product" →
      (∃ r ∈ meta, r.products.length > 1) →
      (assign_splits_run a clusterVals ec2uniprot meta probs seed rng g).1 =
        Except.error (PyErr.notImplementedError
          "Product split not implemented for multi-products")) := by
  constructor
  · intro h
    simp only [List.mem_cons, List.not_mem_nil, or_false, not_or] at h
    obtain ⟨h1, h2, h3, h4, h5, h6⟩ := h
    simp [assign_splits_run, h1, h2, h3, h4, h5, h6]
  · intro hp hm
    have hany : meta.any (fun r => decide (r.products.length > 1)) = true := by
      rw [List.any_eq_true]
      obtain ⟨r, hr, hlen⟩ := hm
      exact ⟨r, hr, by simpa using hlen⟩
    simp [assign_splits_run, hp, hany]

/-- A concrete deterministic generator model for the witnesses. -/
def rngId : RngModel :=
  { shuffle := fun g l => (l, { seedVal := g.seedVal, calls := g.calls + 1 }),
    choice3 := fun g _ => (Split.train,
      { seedVal := g.seedVal, calls := g.calls + 1 }) }

/-- Arguments with an unsupported split type. -/
def aBadSplit : DArgs :=
  { split_type := "banana", ec_level := 1, max_protein_length := none,
    max_reactant_size := none, max_product_size := none,
    atom_map_reactions := false }

/-- Witness for C9 at a concrete input: the unsupported split type
`"banana"` yields the `ValueError`. -/
theorem c9_assign_splits_fatal_witness :
    (assign_splits_run aBadSplit [] (fun _ => []) [] (1/2, 1/4, 1/4) 0 rngId
        (npSeed 7)).1 =
      Except.error (PyErr.valueError "Split type not supported") :=
  (c9_assign_splits_fatal aBadSplit [] (fun _ => []) [] (1/2, 1/4, 1/4) 0 rngId
      (npSeed 7)).1 (by decide)
